import Mathlib

/-
Verification development for the tic-tac-toe game session manager
(src/src/app/app.ts, class TicTacToe).

Shallow embedding conventions:
- The mutable `this.state : SaveBundle` of the TypeScript class becomes the
  Lean structure `SaveBundle`; handlers are functions from a state to a new
  state together with the list of requests they issue to the messaging host.
- The host is asynchronous but (per the concurrency model) events of one
  session are serialized and every promise chain of a handler runs to
  completion in program order, so a whole handler chain is modeled as one
  sequential function.  Values returned by the host (message descriptors,
  the channel id, the random first-player coin) are supplied by an
  environment `Env` that the theorems quantify over.
- A JavaScript exception thrown inside a handler chain (for example
  accessing `.id` of `players[undefined]`) is modeled by returning `none`.
- `boardSize` is the constructor constant 3 (`this.gameSize = 3`), and the
  board is a 3x3 grid, so `boardStates` is embedded as a total function
  `Fin 3 → Fin 3 → Option Player`; the loops of the source that run to
  `this.state.gameSize` are unrolled for the 3-iteration case, while every
  arithmetic use of `gameSize` (cell-index encoding and decoding) keeps the
  `gameSize` field of the state, exactly as the source reads it.
- Mutations of the `acceptSelection` flag are additionally recorded in the
  handler's trace (constructor `Act.setAcceptSelection`) so that the
  ordering of flag flips relative to host requests is observable.
-/

/-- A player index, 0 or 1 (the TypeScript type `0|1`). -/
abbrev Player := Fin 2

/-- A Discord user as far as this program observes it: its id string. -/
structure GameUser where
  id : String
deriving DecidableEq, Repr

/-- The handle of a previously sent message (library type MessageDescriptor). -/
structure MessageDescriptor where
  channelId : String
  messageId : String
deriving DecidableEq, Repr

/-- Button styles used by the program. -/
inductive ButtonStyle where
  | primary
  | secondary
  | success
deriving DecidableEq, Repr

/-- An interactive control, with the fields the program sets. -/
structure Button where
  style : ButtonStyle
  label : Option String
  emoji : Option String
  custom_id : String
  disabled : Bool
deriving DecidableEq, Repr

/-- The serialized session bundle; it is also the live state (`this.state`). -/
structure SaveBundle where
  started : Bool
  stale : Bool
  channelId : String
  gameBoardMessageDescriptor : Option MessageDescriptor
  currentPlayerIndex : Option Player
  lastTurnMessageId : Option String
  acceptSelection : Bool
  possibleTurnsCount : Int
  gameSize : Nat
  players : List GameUser
  boardStates : Fin 3 → Fin 3 → Option Player
  playerIcons : Player → String
deriving DecidableEq

/-- One request issued to the messaging host. -/
inductive HostRequest where
  | createChannel (name : String)
  | sendMessage (content : String) (channelId : String)
      (components : List (List Button)) (allowedMentions : Option (List String))
  | sendPrivateMessage (userId : String) (content : String)
  | deleteMessage (channelId : String) (messageId : Option String)
  | addUserToChannel (userId : String) (channelId : String) (muted : Bool)
  | removeUserFromChannel (userId : String) (channelId : String)
  | replaceControl (channelId : String) (messageId : String)
      (controlId : String) (control : Button)
  | editMessage (channelId : String) (messageId : String) (content : String)
      (components : List (List Button))
deriving DecidableEq, Repr

/-- One observable step (Act) of a handler chain: a host request, a scheduled
fire-and-forget deletion (setTimeout), a diagnostic log (console.warn), or a
flip of the `acceptSelection` flag. -/
inductive Act where
  | host (r : HostRequest)
  | scheduleDelete (channelId : String) (messageId : String) (delayMs : Nat)
  | log (msg : String)
  | setAcceptSelection (b : Bool)
deriving DecidableEq, Repr

/-- Host-supplied values consumed by one handler chain: the descriptor of the
board message, of the turn-notification message and of a transient notice,
the outcome of Math.round(Math.random()), and a fresh channel id. -/
structure Env where
  boardMd : MessageDescriptor
  turnMsgMd : MessageDescriptor
  noticeMd : MessageDescriptor
  coin : Player
  newChannelId : String
deriving DecidableEq, Repr

/-- The identity of the shared LEAVE_SESSION system button.  The concrete
string is a constant of the hosting library (`SystemButtonIds.LEAVE_SESSION`,
not part of this repository); all this program relies on is that it is not
the decimal encoding of a cell index, which holds for this model value. -/
def LEAVE_SESSION : String := "LEAVE_SESSION"

/-- The static "Leave game" button (`TicTacToe.LEAVE_BUTTON`). -/
def LEAVE_BUTTON : Button :=
  { style := ButtonStyle.primary, label := some "Leave game",
    emoji := none, custom_id := LEAVE_SESSION, disabled := false }

/-- UTF-16 code-unit length of a string: JavaScript's String.length, which
the source uses to decide whether an icon must be rendered as an emoji. -/
def utf16Length (s : String) : Nat :=
  (s.data.map (fun c => if c.toNat < 65536 then 1 else 2)).sum

/-- Accumulate the leading decimal digits of a character list; the
accumulator stays `none` while no digit has been seen. -/
def parseDigits : List Char → Option Nat → Option Nat
  | [], acc => acc
  | ch :: rest, acc =>
    if ch.isDigit then
      parseDigits rest (some ((acc.getD 0) * 10 + (ch.toNat - 48)))
    else acc

/-- JavaScript's parseInt on the inputs this program can receive (an optional
sign followed by decimal digits; anything else yields NaN, modeled as
`none`).  The control identities the program itself produces are the decimal
strings "0".."8" and the non-numeric LEAVE_SESSION constant. -/
def jsParseInt (s : String) : Option Int :=
  match s.data with
  | '-' :: rest => (parseDigits rest none).map (fun n => -(n : Int))
  | '+' :: rest => (parseDigits rest none).map (fun n => (n : Int))
  | l => (parseDigits l none).map (fun n => (n : Int))

/-- Default icon assignment of the constructor when no args are given. -/
def defaultIcons : Player → String := fun p => if p = 0 then "❌" else "⭕"

/-- Message texts of the source, verbatim. -/
def alreadyStartedMessage : String :=
  "The game was already started - no new joins allowed."

def alreadyFinishedMessage : String :=
  "The game was already finished - no new joins allowed."

def joinedWaitingMessage (u : GameUser) : String :=
  "<@" ++ u.id ++ "> joined the game.\nWaiting for one more player..."

def joinedStartingMessage (u : GameUser) : String :=
  "<@" ++ u.id ++ "> joined the game.\nStarting game..."

def leftGameMessage (u : GameUser) : String :=
  "User <@" ++ u.id ++ "> has left the game.\nThis game session become stale.\nLeave the session."

def iconAssignMessage (s : SaveBundle) (p0 p1 : GameUser) : String :=
  "<@" ++ p0.id ++ "> will use " ++ s.playerIcons 0 ++ "\n<@" ++ p1.id ++ "> will use " ++ s.playerIcons 1

def turnMessage (u : GameUser) : String :=
  "<@" ++ u.id ++ ">, it\x27s your turn!"

def notYourTurnMessage (u : GameUser) : String :=
  "<@" ++ u.id ++ ">, it\x27s not your turn now."

def alreadyChoseMessage (u : GameUser) : String :=
  "<@" ++ u.id ++ ">, you already made your choise."

def drawMessage : String := "The game was ended in a draw.\nLeave the session"

def winMessage (u : GameUser) : String :=
  "User <@" ++ u.id ++ "> won the game!\nGame over.\nLeave the session"

def wrongTurnWarning : String := "Wrong turn - that cell was already selected."

/-- TicTacToe.checkForWin: scan the three rows, the three columns, then the
two diagonals, and return the control ids of the first fully-populated,
single-owner line, computed with the gameSize arithmetic of the source
(loops unrolled for the 3x3 board). -/
def checkForWin (s : SaveBundle) : Option (List Nat) :=
  let g := s.gameSize
  let b := s.boardStates
  if (b 0 0).isSome = true ∧ b 0 0 = b 0 1 ∧ b 0 1 = b 0 2 then
    some [0 * g, 0 * g + 1, 0 * g + 2]
  else if (b 1 0).isSome = true ∧ b 1 0 = b 1 1 ∧ b 1 1 = b 1 2 then
    some [1 * g, 1 * g + 1, 1 * g + 2]
  else if (b 2 0).isSome = true ∧ b 2 0 = b 2 1 ∧ b 2 1 = b 2 2 then
    some [2 * g, 2 * g + 1, 2 * g + 2]
  else if (b 0 0).isSome = true ∧ b 0 0 = b 1 0 ∧ b 1 0 = b 2 0 then
    some [0, 0 + g, 0 + 2 * g]
  else if (b 0 1).isSome = true ∧ b 0 1 = b 1 1 ∧ b 1 1 = b 2 1 then
    some [1, 1 + g, 1 + 2 * g]
  else if (b 0 2).isSome = true ∧ b 0 2 = b 1 2 ∧ b 1 2 = b 2 2 then
    some [2, 2 + g, 2 + 2 * g]
  else if (b 0 0).isSome = true ∧ b 0 0 = b 1 1 ∧ b 1 1 = b 2 2 then
    some [0, g + 1, 2 * g + 2]
  else if (b 2 0).isSome = true ∧ b 2 0 = b 1 1 ∧ b 1 1 = b 0 2 then
    some [2 * g, g + 1, g - 1]
  else
    none

/-- The 8 candidate lines of the 3x3 board as cell indices, in the scan
order of the specification: rows top-to-bottom, columns left-to-right, the
main diagonal, the anti-diagonal. -/
def scanLines : List (List Nat) :=
  [[0, 1, 2], [3, 4, 5], [6, 7, 8],
   [0, 3, 6], [1, 4, 7], [2, 5, 8],
   [0, 4, 8], [2, 4, 6]]

/-- The cell of the board addressed by cell index n (row n/3, column n%3). -/
def cellAt (s : SaveBundle) (n : Nat) : Option Player :=
  s.boardStates ⟨n / 3 % 3, Nat.mod_lt _ (by omega)⟩ ⟨n % 3, Nat.mod_lt _ (by omega)⟩

/-- A line is fully occupied by a single player. -/
def lineFull (s : SaveBundle) (l : List Nat) : Prop :=
  ∃ p : Player, ∀ n ∈ l, cellAt s n = some p

instance (s : SaveBundle) (l : List Nat) : Decidable (lineFull s l) := by
  unfold lineFull; infer_instance

/-- The first fully-populated single-owner line in scan order. -/
def firstFullLine (s : SaveBundle) : Option (List Nat) :=
  scanLines.find? (fun l => decide (lineFull s l))

/-- TicTacToe.getCellIcon: the icon of a cell and whether it must be sent as
an emoji (JavaScript String.length, i.e. UTF-16 code units, greater than 1).
An empty cell renders as a single space with a falsy emoji flag. -/
def getCellIcon (s : SaveBundle) (row index : Fin 3) : String × Bool :=
  match s.boardStates row index with
  | some sel =>
    let icon := s.playerIcons sel
    (icon, decide (1 < utf16Length icon))
  | none => (" ", false)

/-- TicTacToe.buildButton. -/
def buildButton (s : SaveBundle) (rowIndex index : Fin 3) (disabled : Bool) : Button :=
  let pr := getCellIcon s rowIndex index
  { style := ButtonStyle.secondary,
    label := if pr.2 then none else some pr.1,
    emoji := if pr.2 then some pr.1 else none,
    custom_id := toString (rowIndex.val * s.gameSize + index.val),
    disabled := disabled || (s.boardStates rowIndex index).isSome }

/-- TicTacToe.buildTicTacToe: one row of controls per board row. -/
def buildTicTacToe (s : SaveBundle) (disabled : Bool) : List (List Button) :=
  (List.finRange 3).map (fun r => (List.finRange 3).map (fun c => buildButton s r c disabled))

/-- In-place update of the element at an index of a list (the mutation of
one button inside the rendered board grid); out of range, no element changes. -/
def listModify {α : Type} (f : α → α) : Nat → List α → List α
  | _, [] => []
  | 0, a :: as => f a :: as
  | n + 1, a :: as => a :: listModify f n as

/-- The advanced player index, (currentPlayerIndex + 1) % 2. -/
def nextPlayer (i : Player) : Player := ⟨(i.val + 1) % 2, Nat.mod_lt _ (by omega)⟩

/-- The two mutations of an accepted move (lines 242-243 of the source):
decrement possibleTurnsCount and write currentPlayerIndex into the selected
cell.  The source writes `this.state.currentPlayerIndex` (an optional value)
without unwrapping it, so the written cell value is the option itself. -/
def placeMark (s : SaveBundle) (r c : Fin 3) : SaveBundle :=
  { s with possibleTurnsCount := s.possibleTurnsCount - 1,
           boardStates := Function.update s.boardStates r
             (Function.update (s.boardStates r) c s.currentPlayerIndex) }

/-- TicTacToe.sendTurnNotification: delete the previous turn message if its
id is truthy, send the new turn message mentioning only the acting player,
record the returned message id.  Accessing the acting player can throw
(players[currentPlayerIndex!] may be undefined), modeled as none. -/
def sendTurnNotification (env : Env) (s : SaveBundle) : Option (SaveBundle × List Act) :=
  let delActs : List Act :=
    match s.lastTurnMessageId with
    | some m => if m = "" then [] else [Act.host (HostRequest.deleteMessage s.channelId (some m))]
    | none => []
  match s.currentPlayerIndex.bind (fun i => s.players.get? i.val) with
  | none => none
  | some u =>
    some ({ s with lastTurnMessageId := some env.turnMsgMd.messageId },
      delActs ++ [Act.host (HostRequest.sendMessage (turnMessage u) s.channelId [] (some [u.id]))])

/-- The pattern `this.sendTurnNotification().then(() => acceptSelection = true)`
shared by startGame and handleUserTurn: the flag flips only after the send
of the turn notification has completed. -/
def sendTurnNotificationAndAccept (env : Env) (s : SaveBundle) : Option (SaveBundle × List Act) :=
  match sendTurnNotification env s with
  | none => none
  | some (s1, acts) =>
    some ({ s1 with acceptSelection := true }, acts ++ [Act.setAcceptSelection true])

/-- TicTacToe.startGame: set started, send the icon-assignment message with
the rendered empty board, record its descriptor, pick the first player at
random (env.coin), then run the initial turn-notification cycle. -/
def startGame (env : Env) (s : SaveBundle) : Option (SaveBundle × List Act) :=
  let s1 := { s with started := true }
  match s1.players.get? 0, s1.players.get? 1 with
  | some p0, some p1 =>
    let actBoard := Act.host (HostRequest.sendMessage (iconAssignMessage s1 p0 p1)
      s1.channelId (buildTicTacToe s1 false) none)
    let s2 := { s1 with gameBoardMessageDescriptor := some env.boardMd,
                        currentPlayerIndex := some env.coin }
    match sendTurnNotificationAndAccept env s2 with
    | none => none
    | some (s3, acts) => some (s3, actBoard :: acts)
  | _, _ => none

/-- TicTacToe.handleJoin. -/
def handleJoin (env : Env) (s : SaveBundle) (user : GameUser) : Option (SaveBundle × List Act) :=
  if s.started then
    some (s, [Act.host (HostRequest.sendPrivateMessage user.id alreadyStartedMessage)])
  else if s.stale then
    some (s, [Act.host (HostRequest.sendPrivateMessage user.id alreadyFinishedMessage)])
  else
    let s1 := { s with players := s.players ++ [user] }
    let actAdd := Act.host (HostRequest.addUserToChannel user.id s1.channelId true)
    if s1.players.length = 1 then
      some (s1, [actAdd,
        Act.host (HostRequest.sendMessage (joinedWaitingMessage user) s1.channelId [] none)])
    else if s1.players.length = 2 then
      match startGame env s1 with
      | none => none
      | some (s2, acts) =>
        some (s2, actAdd ::
          Act.host (HostRequest.sendMessage (joinedStartingMessage user) s1.channelId [] none) :: acts)
    else
      some (s1, [actAdd])

/-- TicTacToe.handleLeave. -/
def handleLeave (s : SaveBundle) (user : GameUser) : SaveBundle × List Act :=
  match (s.players.map (fun u => u.id)).findIdx? (fun x => x == user.id) with
  | none => (s, [])
  | some i =>
    let s1 := { s with players := s.players.eraseIdx i }
    if s1.players.length > 0 then
      let staleActs : List Act :=
        if s.stale then [] else
          [Act.host (HostRequest.sendMessage (leftGameMessage user) s.channelId [[LEAVE_BUTTON]] none)]
      ({ s1 with stale := true },
        staleActs ++ [Act.host (HostRequest.removeUserFromChannel user.id s.channelId)])
    else
      ({ s1 with stale := true }, [])

/-- TicTacToe.endGameDraw: delete the last turn notification, set stale,
broadcast the draw notice with the leave control. -/
def endGameDraw (s : SaveBundle) : SaveBundle × List Act :=
  ({ s with stale := true },
   [Act.host (HostRequest.deleteMessage s.channelId s.lastTurnMessageId),
    Act.host (HostRequest.sendMessage drawMessage s.channelId [[LEAVE_BUTTON]] none)])

/-- TicTacToe.renderWinMessage: set stale, delete the last turn notification,
re-render the disabled board with the winning cells styled Success via a full
edit, then announce the winner (mentioning only them) with the leave control.
Accesses through missing players or a missing board descriptor throw (none). -/
def renderWinMessage (env : Env) (s : SaveBundle) (winRow : List Nat) : Option (SaveBundle × List Act) :=
  let s1 := { s with stale := true }
  let actDel := Act.host (HostRequest.deleteMessage s1.channelId s1.lastTurnMessageId)
  let board := winRow.foldl (fun b id =>
    let rowIndex := id / s1.gameSize
    let index := id - rowIndex * s1.gameSize
    listModify (fun row => listModify (fun btn => { btn with style := ButtonStyle.success }) index row)
      rowIndex b) (buildTicTacToe s1 true)
  match s1.gameBoardMessageDescriptor, s1.players.get? 0, s1.players.get? 1 with
  | some desc, some p0, some p1 =>
    let actEdit := Act.host (HostRequest.editMessage desc.channelId desc.messageId
      (iconAssignMessage s1 p0 p1) board)
    match winRow.head? with
    | none => none
    | some w0 =>
      let rowIndex := w0 / s1.gameSize
      let index := w0 - rowIndex * s1.gameSize
      if h : rowIndex < 3 ∧ index < 3 then
        match (s1.boardStates ⟨rowIndex, h.1⟩ ⟨index, h.2⟩).bind
            (fun p => s1.players.get? p.val) with
        | none => none
        | some winner =>
          some (s1, [actDel, actEdit,
            Act.host (HostRequest.sendMessage (winMessage winner) s1.channelId
              [[LEAVE_BUTTON]] (some [winner.id]))])
      else none
  | _, _, _ => none

/-- TicTacToe.handleUserTurn, for a numeric buttonId that already passed the
0..8 range guard.  A selected cell that is already occupied is rejected with
a diagnostic log only; otherwise the mark is placed and either the win path,
the draw path, or the next turn cycle runs. -/
def handleUserTurn (env : Env) (s : SaveBundle) (buttonId : Nat) : Option (SaveBundle × List Act) :=
  let rowIndex := buttonId / s.gameSize
  let index := buttonId - rowIndex * s.gameSize
  if h : rowIndex < 3 ∧ index < 3 then
    let r : Fin 3 := ⟨rowIndex, h.1⟩
    let c : Fin 3 := ⟨index, h.2⟩
    if (s.boardStates r c).isSome = true then
      some (s, [Act.log wrongTurnWarning])
    else
      let s1 := placeMark s r c
      match checkForWin s1 with
      | some winRow => renderWinMessage env s1 winRow
      | none =>
        let s2 := { s1 with acceptSelection := false }
        match s2.gameBoardMessageDescriptor with
        | none => none
        | some desc =>
          let preActs : List Act := [Act.setAcceptSelection false,
            Act.host (HostRequest.replaceControl s2.channelId desc.messageId
              (toString buttonId) (buildButton s2 r c false))]
          if s2.possibleTurnsCount = 0 then
            let p := endGameDraw s2
            some (p.1, preActs ++ p.2)
          else
            let s3 := { s2 with currentPlayerIndex := s2.currentPlayerIndex.map nextPlayer }
            match sendTurnNotificationAndAccept env s3 with
            | none => none
            | some (s4, acts) => some (s4, preActs ++ acts)
  else none

/-- TicTacToe.handleButtonClick: parse the control identity (NaN fails every
comparison, so a non-numeric identity falls through the guard), check the
guard, reject out-of-turn or out-of-window selections with a transient
notice that a timeout later retracts, else run the move. -/
def handleButtonClick (env : Env) (s : SaveBundle) (user : GameUser) (buttonIdStr : String) :
    Option (SaveBundle × List Act) :=
  match jsParseInt buttonIdStr with
  | none => some (s, [])
  | some n =>
    if s.stale = false ∧ 0 ≤ n ∧ n ≤ 8 ∧ s.gameBoardMessageDescriptor.isSome = true then
      match s.currentPlayerIndex.bind (fun i => s.players.get? i.val) with
      | none => none
      | some cur =>
        if user.id ≠ cur.id then
          some (s, [Act.host (HostRequest.sendMessage (notYourTurnMessage user) s.channelId [] none),
                    Act.scheduleDelete env.noticeMd.channelId env.noticeMd.messageId 3000])
        else if s.acceptSelection = false then
          some (s, [Act.host (HostRequest.sendMessage (alreadyChoseMessage user) s.channelId [] none),
                    Act.scheduleDelete env.noticeMd.channelId env.noticeMd.messageId 3000])
        else
          handleUserTurn env s n.toNat
    else
      some (s, [])

/-- The inbound event surface. -/
inductive GameEvent where
  | join (user : GameUser)
  | leave (user : GameUser)
  | buttonClick (user : GameUser) (buttonId : String)

/-- TicTacToe.onEvent: dispatch an event to its handler. -/
def onEvent (env : Env) (s : SaveBundle) : GameEvent → Option (SaveBundle × List Act)
  | GameEvent.join u => handleJoin env s u
  | GameEvent.leave u => some (handleLeave s u)
  | GameEvent.buttonClick u b => handleButtonClick env s u b

/-- TicTacToe.initialize: restore a supplied bundle verbatim, or create the
game channel and a fresh Lobby state.  icons is the constructor-computed
playerIcons table (defaultIcons when the plugin got no args). -/
def initSession (env : Env) (icons : Player → String) (saveBundle : Option SaveBundle) :
    SaveBundle × List Act :=
  match saveBundle with
  | some b => (b, [])
  | none =>
    ({ started := false, stale := false, channelId := env.newChannelId,
       gameBoardMessageDescriptor := none, currentPlayerIndex := none,
       lastTurnMessageId := none, acceptSelection := false,
       possibleTurnsCount := (3 : Int) ^ 2, gameSize := 3, players := [],
       boardStates := fun _ _ => none, playerIcons := icons },
     [Act.host (HostRequest.createChannel "Tic tac toe")])

/-- TicTacToe.destroy: export the current bundle unless the session is stale. -/
def destroy (s : SaveBundle) : Option SaveBundle :=
  if s.stale then none else some s

/-- The states reachable by the session state machine: a freshly initialized
Lobby state, closed under event handling (with arbitrary host responses). -/
inductive Reachable : SaveBundle → Prop where
  | init (env : Env) (icons : Player → String) : Reachable (initSession env icons none).1
  | step (s s' : SaveBundle) (env : Env) (e : GameEvent) (acts : List Act) :
      Reachable s → onEvent env s e = some (s', acts) → Reachable s'

/-- 1 for an occupied cell, 0 for an empty one. -/
def occVal (o : Option Player) : Nat := if o.isSome then 1 else 0

/-- The number of occupied cells of a board. -/
def occCount (b : Fin 3 → Fin 3 → Option Player) : Nat :=
  occVal (b 0 0) + occVal (b 0 1) + occVal (b 0 2) +
  occVal (b 1 0) + occVal (b 1 1) + occVal (b 1 2) +
  occVal (b 2 0) + occVal (b 2 1) + occVal (b 2 2)

/-- Concrete fixtures used by the witness theorems. -/
def alice : GameUser := ⟨"alice"⟩

def bob : GameUser := ⟨"bob"⟩

def env0 : Env :=
  { boardMd := ⟨"chan", "boardmsg"⟩, turnMsgMd := ⟨"chan", "turnmsg"⟩,
    noticeMd := ⟨"chan", "noticemsg"⟩, coin := 0, newChannelId := "chan" }

/-- A running two-player game, alice to move, empty board. -/
def sActive : SaveBundle :=
  { started := true, stale := false, channelId := "chan",
    gameBoardMessageDescriptor := some ⟨"chan", "boardmsg"⟩,
    currentPlayerIndex := some 0, lastTurnMessageId := some "turnmsg",
    acceptSelection := true, possibleTurnsCount := 9, gameSize := 3,
    players := [alice, bob], boardStates := fun _ _ => none,
    playerIcons := defaultIcons }

/-- The same game gone stale. -/
def sStale : SaveBundle := { sActive with stale := true }

/-- A board whose top row is fully owned by player 0. -/
def topRowBoard : Fin 3 → Fin 3 → Option Player :=
  fun r _ => if r = 0 then some 0 else none

/-- The running game with the top row completed by player 0. -/
def sTopRow : SaveBundle := { sActive with boardStates := topRowBoard }

/-- The lobby state just before startGame runs: both players joined, nothing
started yet. -/
def sLobby2 : SaveBundle :=
  { sActive with started := false, gameBoardMessageDescriptor := none,
                 currentPlayerIndex := none, lastTurnMessageId := none,
                 acceptSelection := false }
theorem cellAt_0 (s : SaveBundle) : cellAt s 0 = s.boardStates 0 0 := rfl
theorem cellAt_1 (s : SaveBundle) : cellAt s 1 = s.boardStates 0 1 := rfl
theorem cellAt_2 (s : SaveBundle) : cellAt s 2 = s.boardStates 0 2 := rfl
theorem cellAt_3 (s : SaveBundle) : cellAt s 3 = s.boardStates 1 0 := rfl
theorem cellAt_4 (s : SaveBundle) : cellAt s 4 = s.boardStates 1 1 := rfl
theorem cellAt_5 (s : SaveBundle) : cellAt s 5 = s.boardStates 1 2 := rfl
theorem cellAt_6 (s : SaveBundle) : cellAt s 6 = s.boardStates 2 0 := rfl
theorem cellAt_7 (s : SaveBundle) : cellAt s 7 = s.boardStates 2 1 := rfl
theorem cellAt_8 (s : SaveBundle) : cellAt s 8 = s.boardStates 2 2 := rfl

theorem lineFull_iff (s : SaveBundle) (a b c : Nat) :
    lineFull s [a, b, c] ↔
      ((cellAt s a).isSome = true ∧ cellAt s a = cellAt s b ∧ cellAt s b = cellAt s c) := by
  constructor
  · rintro ⟨p, hp⟩
    have h1 := hp a (by simp)
    have h2 := hp b (by simp)
    have h3 := hp c (by simp)
    simp [h1, h2, h3]
  · rintro ⟨h1, h2, h3⟩
    rcases Option.isSome_iff_exists.mp h1 with ⟨p, hp⟩
    refine ⟨p, ?_⟩
    intro n hn
    simp only [List.mem_cons, List.not_mem_nil, or_false] at hn
    rcases hn with rfl | rfl | rfl
    · exact hp
    · rw [← h2]; exact hp
    · rw [← h3, ← h2]; exact hp

theorem lineFull_anti (s : SaveBundle) :
    lineFull s [2, 4, 6] ↔
      ((s.boardStates 2 0).isSome = true ∧ s.boardStates 2 0 = s.boardStates 1 1 ∧
        s.boardStates 1 1 = s.boardStates 0 2) := by
  rw [lineFull_iff, cellAt_2, cellAt_4, cellAt_6]
  constructor
  · rintro ⟨h1, h2, h3⟩
    refine ⟨?_, h3.symm, h2.symm⟩
    rw [← h3, ← h2]; exact h1
  · rintro ⟨h1, h2, h3⟩
    refine ⟨?_, h3.symm, h2.symm⟩
    rw [← h3, ← h2]; exact h1

set_option maxHeartbeats 1600000 in
/-- C1: checkForWin returns a line exactly when some row, column, or diagonal
is fully occupied by a single player, and the returned value lists the three
cell indices of the first such line in the scan order rows top-to-bottom,
then columns left-to-right, then the two diagonals. -/
theorem checkForWin_correct (s : SaveBundle) (hg : s.gameSize = 3) :
    ((checkForWin s).isSome = true ↔ ∃ l ∈ scanLines, lineFull s l) ∧
    (∀ r, checkForWin s = some r → ∃ l, firstFullLine s = some l ∧ r.Perm l) := by
  have L1 : lineFull s [0, 1, 2] ↔
      ((s.boardStates 0 0).isSome = true ∧ s.boardStates 0 0 = s.boardStates 0 1 ∧
        s.boardStates 0 1 = s.boardStates 0 2) := by
    rw [lineFull_iff, cellAt_0, cellAt_1, cellAt_2]
  have L2 : lineFull s [3, 4, 5] ↔
      ((s.boardStates 1 0).isSome = true ∧ s.boardStates 1 0 = s.boardStates 1 1 ∧
        s.boardStates 1 1 = s.boardStates 1 2) := by
    rw [lineFull_iff, cellAt_3, cellAt_4, cellAt_5]
  have L3 : lineFull s [6, 7, 8] ↔
      ((s.boardStates 2 0).isSome = true ∧ s.boardStates 2 0 = s.boardStates 2 1 ∧
        s.boardStates 2 1 = s.boardStates 2 2) := by
    rw [lineFull_iff, cellAt_6, cellAt_7, cellAt_8]
  have L4 : lineFull s [0, 3, 6] ↔
      ((s.boardStates 0 0).isSome = true ∧ s.boardStates 0 0 = s.boardStates 1 0 ∧
        s.boardStates 1 0 = s.boardStates 2 0) := by
    rw [lineFull_iff, cellAt_0, cellAt_3, cellAt_6]
  have L5 : lineFull s [1, 4, 7] ↔
      ((s.boardStates 0 1).isSome = true ∧ s.boardStates 0 1 = s.boardStates 1 1 ∧
        s.boardStates 1 1 = s.boardStates 2 1) := by
    rw [lineFull_iff, cellAt_1, cellAt_4, cellAt_7]
  have L6 : lineFull s [2, 5, 8] ↔
      ((s.boardStates 0 2).isSome = true ∧ s.boardStates 0 2 = s.boardStates 1 2 ∧
        s.boardStates 1 2 = s.boardStates 2 2) := by
    rw [lineFull_iff, cellAt_2, cellAt_5, cellAt_8]
  have L7 : lineFull s [0, 4, 8] ↔
      ((s.boardStates 0 0).isSome = true ∧ s.boardStates 0 0 = s.boardStates 1 1 ∧
        s.boardStates 1 1 = s.boardStates 2 2) := by
    rw [lineFull_iff, cellAt_0, cellAt_4, cellAt_8]
  have L8 := lineFull_anti s
  simp only [checkForWin, hg]
  split_ifs with h1 h2 h3 h4 h5 h6 h7 h8
  · refine ⟨by simp only [Option.isSome_some, true_iff]; exact ⟨[0, 1, 2], by simp [scanLines], L1.mpr h1⟩, ?_⟩
    intro r hr
    rw [Option.some.injEq] at hr
    subst hr
    refine ⟨[0, 1, 2], ?_, by decide⟩
    simp only [firstFullLine, scanLines, List.find?]
    rw [decide_eq_true (L1.mpr h1)]
  · refine ⟨by simp only [Option.isSome_some, true_iff]; exact ⟨[3, 4, 5], by simp [scanLines], L2.mpr h2⟩, ?_⟩
    intro r hr
    rw [Option.some.injEq] at hr
    subst hr
    refine ⟨[3, 4, 5], ?_, by decide⟩
    simp only [firstFullLine, scanLines, List.find?]
    rw [decide_eq_false (fun hf => h1 (L1.mp hf)), decide_eq_true (L2.mpr h2)]
  · refine ⟨by simp only [Option.isSome_some, true_iff]; exact ⟨[6, 7, 8], by simp [scanLines], L3.mpr h3⟩, ?_⟩
    intro r hr
    rw [Option.some.injEq] at hr
    subst hr
    refine ⟨[6, 7, 8], ?_, by decide⟩
    simp only [firstFullLine, scanLines, List.find?]
    rw [decide_eq_false (fun hf => h1 (L1.mp hf)), decide_eq_false (fun hf => h2 (L2.mp hf)),
      decide_eq_true (L3.mpr h3)]
  · refine ⟨by simp only [Option.isSome_some, true_iff]; exact ⟨[0, 3, 6], by simp [scanLines], L4.mpr h4⟩, ?_⟩
    intro r hr
    rw [Option.some.injEq] at hr
    subst hr
    refine ⟨[0, 3, 6], ?_, by decide⟩
    simp only [firstFullLine, scanLines, List.find?]
    rw [decide_eq_false (fun hf => h1 (L1.mp hf)), decide_eq_false (fun hf => h2 (L2.mp hf)),
      decide_eq_false (fun hf => h3 (L3.mp hf)), decide_eq_true (L4.mpr h4)]
  · refine ⟨by simp only [Option.isSome_some, true_iff]; exact ⟨[1, 4, 7], by simp [scanLines], L5.mpr h5⟩, ?_⟩
    intro r hr
    rw [Option.some.injEq] at hr
    subst hr
    refine ⟨[1, 4, 7], ?_, by decide⟩
    simp only [firstFullLine, scanLines, List.find?]
    rw [decide_eq_false (fun hf => h1 (L1.mp hf)), decide_eq_false (fun hf => h2 (L2.mp hf)),
      decide_eq_false (fun hf => h3 (L3.mp hf)), decide_eq_false (fun hf => h4 (L4.mp hf)),
      decide_eq_true (L5.mpr h5)]
  · refine ⟨by simp only [Option.isSome_some, true_iff]; exact ⟨[2, 5, 8], by simp [scanLines], L6.mpr h6⟩, ?_⟩
    intro r hr
    rw [Option.some.injEq] at hr
    subst hr
    refine ⟨[2, 5, 8], ?_, by decide⟩
    simp only [firstFullLine, scanLines, List.find?]
    rw [decide_eq_false (fun hf => h1 (L1.mp hf)), decide_eq_false (fun hf => h2 (L2.mp hf)),
      decide_eq_false (fun hf => h3 (L3.mp hf)), decide_eq_false (fun hf => h4 (L4.mp hf)),
      decide_eq_false (fun hf => h5 (L5.mp hf)), decide_eq_true (L6.mpr h6)]
  · refine ⟨by simp only [Option.isSome_some, true_iff]; exact ⟨[0, 4, 8], by simp [scanLines], L7.mpr h7⟩, ?_⟩
    intro r hr
    rw [Option.some.injEq] at hr
    subst hr
    refine ⟨[0, 4, 8], ?_, by decide⟩
    simp only [firstFullLine, scanLines, List.find?]
    rw [decide_eq_false (fun hf => h1 (L1.mp hf)), decide_eq_false (fun hf => h2 (L2.mp hf)),
      decide_eq_false (fun hf => h3 (L3.mp hf)), decide_eq_false (fun hf => h4 (L4.mp hf)),
      decide_eq_false (fun hf => h5 (L5.mp hf)), decide_eq_false (fun hf => h6 (L6.mp hf)),
      decide_eq_true (L7.mpr h7)]
  · refine ⟨by simp only [Option.isSome_some, true_iff]; exact ⟨[2, 4, 6], by simp [scanLines], L8.mpr h8⟩, ?_⟩
    intro r hr
    rw [Option.some.injEq] at hr
    subst hr
    refine ⟨[2, 4, 6], ?_, by decide⟩
    simp only [firstFullLine, scanLines, List.find?]
    rw [decide_eq_false (fun hf => h1 (L1.mp hf)), decide_eq_false (fun hf => h2 (L2.mp hf)),
      decide_eq_false (fun hf => h3 (L3.mp hf)), decide_eq_false (fun hf => h4 (L4.mp hf)),
      decide_eq_false (fun hf => h5 (L5.mp hf)), decide_eq_false (fun hf => h6 (L6.mp hf)),
      decide_eq_false (fun hf => h7 (L7.mp hf)), decide_eq_true (L8.mpr h8)]
  · constructor
    · simp only [Option.isSome_none, Bool.false_eq_true, false_iff]
      rintro ⟨l, hl, hf⟩
      simp only [scanLines, List.mem_cons, List.not_mem_nil, or_false] at hl
      rcases hl with rfl | rfl | rfl | rfl | rfl | rfl | rfl | rfl
      · exact h1 (L1.mp hf)
      · exact h2 (L2.mp hf)
      · exact h3 (L3.mp hf)
      · exact h4 (L4.mp hf)
      · exact h5 (L5.mp hf)
      · exact h6 (L6.mp hf)
      · exact h7 (L7.mp hf)
      · exact h8 (L8.mp hf)
    · intro r hr
      exact absurd hr (by simp)

/-- Witness for C1 at a concrete board whose top row is owned by player 0. -/
theorem checkForWin_correct_witness :
    sTopRow.gameSize = 3 ∧
      ((checkForWin sTopRow).isSome = true ↔ ∃ l ∈ scanLines, lineFull sTopRow l) :=
  ⟨rfl, (checkForWin_correct sTopRow rfl).1⟩

/-- C2: once the session is stale, a button-click event leaves the whole
state unchanged (in particular cells, remainingCells, currentPlayerIndex and
awaitingSelection) and issues nothing. -/
theorem stale_selection_noop (env : Env) (s : SaveBundle) (u : GameUser) (bid : String)
    (h : s.stale = true) : handleButtonClick env s u bid = some (s, []) := by
  unfold handleButtonClick
  split
  · rfl
  · rw [if_neg]
    rintro ⟨hs, -⟩
    rw [h] at hs
    cases hs

/-- Witness for C2: a concrete stale session ignores a well-formed click. -/
theorem stale_selection_noop_witness :
    sStale.stale = true ∧ handleButtonClick env0 sStale alice "4" = some (sStale, []) :=
  ⟨rfl, stale_selection_noop env0 sStale alice "4" rfl⟩

/-- C8: destroy mutates nothing and exports the current bundle exactly when
the session is not stale (a stale session yields no bundle), and restoring
the exported bundle reproduces a state with all fields equal, with no host
requests and no recomputation. -/
theorem destroy_roundtrip :
    (∀ s : SaveBundle, s.stale = true → destroy s = none) ∧
    (∀ s : SaveBundle, s.stale = false → destroy s = some s) ∧
    (∀ (env : Env) (icons : Player → String) (s b : SaveBundle),
      destroy s = some b → initSession env icons (some b) = (s, [])) := by
  refine ⟨?_, ?_, ?_⟩
  · intro s h
    unfold destroy
    rw [if_pos h]
  · intro s h
    unfold destroy
    rw [if_neg]
    rw [h]
    exact Bool.false_ne_true
  · intro env icons s b h
    unfold destroy at h
    by_cases hs : s.stale = true
    · rw [if_pos hs] at h
      cases h
    · rw [if_neg hs] at h
      cases h
      rfl

/-- Witness for C8 at a concrete running session and a concrete stale one. -/
theorem destroy_roundtrip_witness :
    sActive.stale = false ∧ destroy sActive = some sActive ∧
      initSession env0 defaultIcons (some sActive) = (sActive, []) ∧
      sStale.stale = true ∧ destroy sStale = none :=
  ⟨rfl, destroy_roundtrip.2.1 sActive rfl,
    destroy_roundtrip.2.2 env0 defaultIcons sActive sActive (destroy_roundtrip.2.1 sActive rfl),
    rfl, destroy_roundtrip.1 sStale rfl⟩

/-- C10: a selection event whose control identity does not parse to an
integer in 0..8 (including non-numeric identities such as the shared leave
control, which parse to NaN) leaves the state unchanged and issues nothing. -/
theorem unparsable_button_noop (env : Env) (s : SaveBundle) (u : GameUser) (bid : String)
    (h : (jsParseInt bid).elim True (fun n => n < 0 ∨ 8 < n)) :
    handleButtonClick env s u bid = some (s, []) := by
  unfold handleButtonClick
  split
  · rfl
  · rename_i n hn
    rw [hn] at h
    simp only [Option.elim] at h
    rw [if_neg]
    rintro ⟨-, h0, h8, -⟩
    omega

/-- Witness for C10: the leave-control identity is rejected without effect. -/
theorem unparsable_button_noop_witness :
    (jsParseInt LEAVE_SESSION).elim True (fun n => n < 0 ∨ 8 < n) ∧
      handleButtonClick env0 sActive alice LEAVE_SESSION = some (sActive, []) :=
  ⟨trivial, unparsable_button_noop env0 sActive alice LEAVE_SESSION trivial⟩

theorem sendTurnNotification_state (env : Env) (s : SaveBundle) (s' : SaveBundle)
    (acts : List Act) (h : sendTurnNotification env s = some (s', acts)) :
    s' = { s with lastTurnMessageId := some env.turnMsgMd.messageId } := by
  simp only [sendTurnNotification] at h
  split at h
  · cases h
  · rw [Option.some.injEq, Prod.mk.injEq] at h
    exact h.1.symm

theorem sendTurnNotificationAndAccept_state (env : Env) (s : SaveBundle) (s' : SaveBundle)
    (acts : List Act) (h : sendTurnNotificationAndAccept env s = some (s', acts)) :
    s' = { s with lastTurnMessageId := some env.turnMsgMd.messageId,
                  acceptSelection := true } := by
  unfold sendTurnNotificationAndAccept at h
  split at h
  · cases h
  · rename_i s1 acts1 hq
    rw [Option.some.injEq, Prod.mk.injEq] at h
    obtain ⟨h1, -⟩ := h
    rw [← h1, sendTurnNotification_state env s s1 acts1 hq]

theorem startGame_state (env : Env) (s : SaveBundle) (s' : SaveBundle) (acts : List Act)
    (h : startGame env s = some (s', acts)) :
    ∃ p0 p1, s.players.get? 0 = some p0 ∧ s.players.get? 1 = some p1 ∧
      s' = { s with started := true,
                    gameBoardMessageDescriptor := some env.boardMd,
                    currentPlayerIndex := some env.coin,
                    lastTurnMessageId := some env.turnMsgMd.messageId,
                    acceptSelection := true } := by
  simp only [startGame] at h
  split at h
  · rename_i p0 p1 h0 h1
    split at h
    · cases h
    · rename_i s3 acts3 hq
      rw [Option.some.injEq, Prod.mk.injEq] at h
      obtain ⟨h2, -⟩ := h
      exact ⟨p0, p1, h0, h1, by
        rw [← h2, sendTurnNotificationAndAccept_state env _ s3 acts3 hq]⟩
  · cases h

theorem renderWinMessage_state (env : Env) (s : SaveBundle) (w : List Nat)
    (s' : SaveBundle) (acts : List Act) (h : renderWinMessage env s w = some (s', acts)) :
    s' = { s with stale := true } := by
  simp only [renderWinMessage] at h
  repeat' split at h
  all_goals cases h <;> rfl

theorem endGameDraw_state (s : SaveBundle) : (endGameDraw s).1 = { s with stale := true } := rfl

theorem length_eraseIdx_le {α : Type} (l : List α) (i : Nat) :
    (l.eraseIdx i).length ≤ l.length := by
  induction l generalizing i with
  | nil => simp [List.eraseIdx]
  | cons a as ih =>
    cases i with
    | zero => simp [List.eraseIdx]
    | succ j =>
      simp only [List.eraseIdx, List.length_cons]
      exact Nat.succ_le_succ (ih j)

theorem handleUserTurn_char (env : Env) (s : SaveBundle) (n : Nat) (s' : SaveBundle)
    (acts : List Act) (h : handleUserTurn env s n = some (s', acts)) :
    s' = s ∨
    (∃ r c : Fin 3, s.boardStates r c = none ∧
      s'.possibleTurnsCount = s.possibleTurnsCount - 1 ∧
      s'.boardStates = Function.update s.boardStates r
        (Function.update (s.boardStates r) c s.currentPlayerIndex) ∧
      s'.players = s.players ∧ s'.started = s.started ∧
      s'.gameSize = s.gameSize ∧
      s'.gameBoardMessageDescriptor = s.gameBoardMessageDescriptor ∧
      (s'.stale = s.stale ∨ s'.stale = true)) := by
  simp only [handleUserTurn] at h
  split at h
  · rename_i hb
    split at h
    · rw [Option.some.injEq, Prod.mk.injEq] at h
      left
      exact h.1.symm
    · rename_i hocc
      rw [Option.not_isSome_iff_eq_none] at hocc
      right
      refine ⟨⟨n / s.gameSize, hb.1⟩, ⟨n - n / s.gameSize * s.gameSize, hb.2⟩, hocc, ?_⟩
      split at h
      · have hs := renderWinMessage_state env _ _ s' acts h
        rw [hs]
        refine ⟨rfl, rfl, rfl, rfl, rfl, rfl, Or.inr rfl⟩
      · split at h
        · cases h
        · split at h
          · rw [Option.some.injEq, Prod.mk.injEq] at h
            obtain ⟨h1, -⟩ := h
            rw [← h1]
            refine ⟨rfl, rfl, rfl, rfl, rfl, rfl, Or.inr rfl⟩
          · split at h
            · cases h
            · rename_i s4 acts4 hq
              rw [Option.some.injEq, Prod.mk.injEq] at h
              obtain ⟨h1, -⟩ := h
              have hs := sendTurnNotificationAndAccept_state env _ s4 acts4 hq
              rw [← h1, hs]
              refine ⟨rfl, rfl, rfl, rfl, rfl, rfl, Or.inl rfl⟩
  · cases h

theorem handleButtonClick_char (env : Env) (s : SaveBundle) (u : GameUser) (bid : String)
    (s' : SaveBundle) (acts : List Act)
    (h : handleButtonClick env s u bid = some (s', acts)) :
    s' = s ∨
    (∃ i : Player, s.currentPlayerIndex = some i ∧
      ∃ r c : Fin 3, s.boardStates r c = none ∧
        s'.possibleTurnsCount = s.possibleTurnsCount - 1 ∧
        s'.boardStates = Function.update s.boardStates r
          (Function.update (s.boardStates r) c (some i)) ∧
        s'.players = s.players ∧ s'.started = s.started ∧
        s'.gameSize = s.gameSize ∧ (s'.stale = s.stale ∨ s'.stale = true)) := by
  simp only [handleButtonClick] at h
  split at h
  · rw [Option.some.injEq, Prod.mk.injEq] at h
    exact Or.inl h.1.symm
  · split at h
    · split at h
      · cases h
      · rename_i cur hcur
        split at h
        · rw [Option.some.injEq, Prod.mk.injEq] at h
          exact Or.inl h.1.symm
        · split at h
          · rw [Option.some.injEq, Prod.mk.injEq] at h
            exact Or.inl h.1.symm
          · rcases handleUserTurn_char env s _ s' acts h with hs | ⟨r, c, hc⟩
            · exact Or.inl hs
            · right
              rcases hci : s.currentPlayerIndex with - | i
              · rw [hci] at hcur
                cases hcur
              · refine ⟨i, rfl, r, c, ?_⟩
                rw [hci] at hc
                obtain ⟨h1, h2, h3, h4, h5, h6, -, h8⟩ := hc
                exact ⟨h1, h2, h3, h4, h5, h6, h8⟩
    · rw [Option.some.injEq, Prod.mk.injEq] at h
      exact Or.inl h.1.symm

theorem handleJoin_char (env : Env) (s : SaveBundle) (u : GameUser)
    (s' : SaveBundle) (acts : List Act) (h : handleJoin env s u = some (s', acts)) :
    s' = s ∨
    (s.started = false ∧ s.stale = false ∧
      s'.players = s.players ++ [u] ∧
      s'.boardStates = s.boardStates ∧ s'.possibleTurnsCount = s.possibleTurnsCount ∧
      s'.stale = s.stale ∧ s'.gameSize = s.gameSize ∧
      ((s'.started = s.started ∧ (s.players ++ [u]).length ≠ 2) ∨
        ((s.players ++ [u]).length = 2 ∧ s'.started = true))) := by
  simp only [handleJoin] at h
  split at h
  · rw [Option.some.injEq, Prod.mk.injEq] at h
    exact Or.inl h.1.symm
  · split at h
    · rw [Option.some.injEq, Prod.mk.injEq] at h
      exact Or.inl h.1.symm
    · rename_i hst hstale
      rw [Bool.not_eq_true] at hst hstale
      right
      refine ⟨hst, hstale, ?_⟩
      split at h
      · rename_i hlen1
        have hlen1' : (s.players ++ [u]).length = 1 := hlen1
        rw [Option.some.injEq, Prod.mk.injEq] at h
        obtain ⟨h1, -⟩ := h
        rw [← h1]
        exact ⟨rfl, rfl, rfl, rfl, rfl, Or.inl ⟨rfl, by omega⟩⟩
      · split at h
        · rename_i hlen2
          have hlen2' : (s.players ++ [u]).length = 2 := hlen2
          split at h
          · cases h
          · rename_i s2 acts2 hsg
            rw [Option.some.injEq, Prod.mk.injEq] at h
            obtain ⟨h1, -⟩ := h
            obtain ⟨p0, p1, -, -, hs2⟩ := startGame_state env _ s2 acts2 hsg
            rw [← h1, hs2]
            exact ⟨rfl, rfl, rfl, rfl, rfl, Or.inr ⟨hlen2', rfl⟩⟩
        · rename_i hnot2
          have hnot2' : ¬((s.players ++ [u]).length = 2) := hnot2
          rw [Option.some.injEq, Prod.mk.injEq] at h
          obtain ⟨h1, -⟩ := h
          rw [← h1]
          exact ⟨rfl, rfl, rfl, rfl, rfl, Or.inl ⟨rfl, hnot2'⟩⟩

theorem update_board_apply (b : Fin 3 → Fin 3 → Option Player) (r c : Fin 3)
    (v : Option Player) (i j : Fin 3) :
    Function.update b r (Function.update (b r) c v) i j =
      if i = r ∧ j = c then v else b i j := by
  rcases eq_or_ne i r with rfl | hi
  · rw [Function.update_same]
    rcases eq_or_ne j c with rfl | hj
    · rw [Function.update_same, if_pos ⟨rfl, rfl⟩]
    · rw [Function.update_noteq hj, if_neg]
      rintro ⟨-, rfl⟩
      exact hj rfl
  · rw [Function.update_noteq hi, if_neg]
    rintro ⟨rfl, -⟩
    exact hi rfl

theorem occVal_le_one (o : Option Player) : occVal o ≤ 1 := by
  unfold occVal
  split <;> omega

theorem fin3_mk_0 (h : (0 : Nat) < 3) : (⟨0, h⟩ : Fin 3) = 0 := rfl

theorem fin3_mk_1 (h : (1 : Nat) < 3) : (⟨1, h⟩ : Fin 3) = 1 := rfl

theorem fin3_mk_2 (h : (2 : Nat) < 3) : (⟨2, h⟩ : Fin 3) = 2 := rfl

theorem fin3_mk_eq (m : Nat) (r : Fin 3) (hm : m = r.val) :
    ∀ h : m < 3, (⟨m, h⟩ : Fin 3) = r := fun _ => Fin.ext hm

theorem occCount_update (b : Fin 3 → Fin 3 → Option Player) (r c : Fin 3) (v : Option Player)
    (hc : b r c = none) :
    occCount (Function.update b r (Function.update (b r) c v)) = occCount b + occVal v := by
  simp only [occCount, update_board_apply]
  fin_cases r <;> fin_cases c <;>
    simp only [fin3_mk_0, fin3_mk_1, fin3_mk_2] at hc ⊢ <;>
    simp +decide only [] <;>
    simp [hc, occVal] <;> omega

theorem occCount_le_9 (b : Fin 3 → Fin 3 → Option Player) : occCount b ≤ 9 := by
  have h1 := occVal_le_one (b 0 0)
  have h2 := occVal_le_one (b 0 1)
  have h3 := occVal_le_one (b 0 2)
  have h4 := occVal_le_one (b 1 0)
  have h5 := occVal_le_one (b 1 1)
  have h6 := occVal_le_one (b 1 2)
  have h7 := occVal_le_one (b 2 0)
  have h8 := occVal_le_one (b 2 1)
  have h9 := occVal_le_one (b 2 2)
  unfold occCount
  omega

theorem occCount_le_8 (b : Fin 3 → Fin 3 → Option Player) (r c : Fin 3)
    (h : b r c = none) : occCount b ≤ 8 := by
  have h9 := occCount_le_9 (Function.update b r (Function.update (b r) c (some 0)))
  rw [occCount_update b r c (some 0) h] at h9
  have hv : occVal (some (0 : Player)) = 1 := rfl
  omega

theorem handleLeave_state (s : SaveBundle) (u : GameUser) :
    (handleLeave s u).1.possibleTurnsCount = s.possibleTurnsCount ∧
    (handleLeave s u).1.boardStates = s.boardStates ∧
    (handleLeave s u).1.started = s.started ∧
    (handleLeave s u).1.gameSize = s.gameSize ∧
    (handleLeave s u).1.players.length ≤ s.players.length ∧
    ((handleLeave s u).1 = s ∨ (handleLeave s u).1.stale = true) := by
  rcases hf : (s.players.map (fun v => v.id)).findIdx? (fun x => x == u.id) with - | i
  · simp [handleLeave, hf]
  · simp only [handleLeave, hf]
    split
    · refine ⟨by rfl, by rfl, by rfl, by rfl, length_eraseIdx_le _ _, Or.inr (by rfl)⟩
    · refine ⟨by rfl, by rfl, by rfl, by rfl, length_eraseIdx_le _ _, Or.inr (by rfl)⟩

/-- C4: in every reachable state, remainingCells plus the number of occupied
cells equals boardSize squared (9) and remainingCells is never negative; an
accepted move decrements remainingCells by exactly 1 and marks exactly the
decoded, previously empty cell as occupied by the current player, leaving
every other cell unchanged. -/
theorem remainingCells_invariant :
    (∀ s : SaveBundle, Reachable s →
      s.possibleTurnsCount + (occCount s.boardStates : Int) = 9 ∧
        0 ≤ s.possibleTurnsCount) ∧
    (∀ (env : Env) (s : SaveBundle) (u : GameUser) (bid : String) (n : Int) (i : Player)
      (cur : GameUser) (s' : SaveBundle) (acts : List Act) (r c : Fin 3),
      jsParseInt bid = some n → 0 ≤ n → n ≤ 8 → s.stale = false →
      s.gameBoardMessageDescriptor.isSome = true → s.currentPlayerIndex = some i →
      s.players.get? i.val = some cur → u.id = cur.id → s.acceptSelection = true →
      r.val = n.toNat / s.gameSize → c.val = n.toNat - n.toNat / s.gameSize * s.gameSize →
      s.boardStates r c = none →
      handleButtonClick env s u bid = some (s', acts) →
      s'.possibleTurnsCount = s.possibleTurnsCount - 1 ∧
      s'.boardStates r c = some i ∧
      (∀ r' c' : Fin 3, ¬(r' = r ∧ c' = c) → s'.boardStates r' c' = s.boardStates r' c')) := by
  constructor
  · intro s h
    induction h with
    | init env icons =>
      constructor
      · show (3 : Int) ^ 2 + (occCount (fun _ _ => none) : Int) = 9
        have h0 : occCount (fun _ _ => none) = 0 := rfl
        rw [h0]
        norm_num
      · show (0 : Int) ≤ (3 : Int) ^ 2
        norm_num
    | step s s' env e acts hr hev ih =>
      cases e with
      | join u =>
        simp only [onEvent] at hev
        rcases handleJoin_char env s u s' acts hev with rfl | ⟨-, -, -, hb, hcount, -, -, -⟩
        · exact ih
        · rw [hcount, hb]
          exact ih
      | leave u =>
        simp only [onEvent, Option.some.injEq] at hev
        have hs' : s' = (handleLeave s u).1 := by rw [hev]
        rw [hs', (handleLeave_state s u).1, (handleLeave_state s u).2.1]
        exact ih
      | buttonClick u bid =>
        simp only [onEvent] at hev
        rcases handleButtonClick_char env s u bid s' acts hev with
          rfl | ⟨i, hci, r, c, hempty, hcount, hboard, -, -, -, -⟩
        · exact ih
        · have hocc : occCount s'.boardStates = occCount s.boardStates + 1 := by
            rw [hboard, occCount_update s.boardStates r c (some i) hempty]
            rfl
          have h8 := occCount_le_8 s.boardStates r c hempty
          obtain ⟨ih1, ih2⟩ := ih
          constructor
          · rw [hcount, hocc]
            push_cast
            omega
          · rw [hcount]
            omega
  · intro env s u bid n i cur s' acts r c hpn h0 h8 hstale hd hci hcur huid hacc hr hc hempty hres
    have hbind : s.currentPlayerIndex.bind (fun j => s.players.get? j.val) = some cur := by
      rw [hci]
      exact hcur
    simp only [handleButtonClick, hpn] at hres
    rw [if_pos ⟨hstale, h0, h8, hd⟩] at hres
    simp only [hbind] at hres
    rw [if_neg (fun hne => hne huid)] at hres
    rw [if_neg (by intro hcontr; rw [hacc] at hcontr; cases hcontr)] at hres
    have hb1 : n.toNat / s.gameSize < 3 := by
      rw [← hr]
      exact r.isLt
    have hb2 : n.toNat - n.toNat / s.gameSize * s.gameSize < 3 := by
      rw [← hc]
      exact c.isLt
    simp only [handleUserTurn] at hres
    rw [dif_pos (⟨hb1, hb2⟩ : _ ∧ _)] at hres
    simp only [fin3_mk_eq (n.toNat / s.gameSize) r hr.symm,
      fin3_mk_eq (n.toNat - n.toNat / s.gameSize * s.gameSize) c hc.symm] at hres
    rw [if_neg (by intro hcontr; rw [hempty] at hcontr; cases hcontr)] at hres
    have hmain : ∀ t : SaveBundle,
        t.boardStates = (placeMark s r c).boardStates →
        t.possibleTurnsCount = (placeMark s r c).possibleTurnsCount →
        t.possibleTurnsCount = s.possibleTurnsCount - 1 ∧
        t.boardStates r c = some i ∧
        (∀ r' c' : Fin 3, ¬(r' = r ∧ c' = c) → t.boardStates r' c' = s.boardStates r' c') := by
      intro t hb hp
      refine ⟨hp, ?_, ?_⟩
      · rw [hb]
        show Function.update s.boardStates r
          (Function.update (s.boardStates r) c s.currentPlayerIndex) r c = some i
        rw [update_board_apply, if_pos ⟨rfl, rfl⟩, hci]
      · intro r' c' hne
        rw [hb]
        show Function.update s.boardStates r
          (Function.update (s.boardStates r) c s.currentPlayerIndex) r' c' = s.boardStates r' c'
        rw [update_board_apply, if_neg hne]
    split at hres
    · rename_i winRow hwin
      have hs' := renderWinMessage_state env _ winRow s' acts hres
      exact hmain s' (by rw [hs']; try exact rfl) (by rw [hs']; try exact rfl)
    · split at hres
      · cases hres
      · split at hres
        · rw [Option.some.injEq, Prod.mk.injEq] at hres
          obtain ⟨h1, -⟩ := hres
          exact hmain s' (by rw [← h1]; try exact rfl) (by rw [← h1]; try exact rfl)
        · split at hres
          · cases hres
          · rename_i s4 acts4 hq
            rw [Option.some.injEq, Prod.mk.injEq] at hres
            obtain ⟨h1, -⟩ := hres
            have hs4 := sendTurnNotificationAndAccept_state env _ s4 acts4 hq
            exact hmain s' (by rw [← h1, hs4]; try exact rfl) (by rw [← h1, hs4]; try exact rfl)

/-- Witness for C4: the freshly initialized session satisfies the counter
invariant, via the reachability part of the theorem. -/
theorem remainingCells_invariant_witness :
    (initSession env0 defaultIcons none).1.possibleTurnsCount +
        (occCount (initSession env0 defaultIcons none).1.boardStates : Int) = 9 ∧
      0 ≤ (initSession env0 defaultIcons none).1.possibleTurnsCount :=
  remainingCells_invariant.1 _ (Reachable.init env0 defaultIcons)

theorem players_invariant (s : SaveBundle) (h : Reachable s) :
    s.players.length ≤ 2 ∧
      (s.started = false → s.stale = false → s.players.length ≤ 1) := by
  induction h with
  | init env icons =>
    constructor
    · show ([] : List GameUser).length ≤ 2
      simp
    · intro _ _
      show ([] : List GameUser).length ≤ 1
      simp
  | step s s' env e acts hr hev ih =>
    cases e with
    | join u =>
      simp only [onEvent] at hev
      rcases handleJoin_char env s u s' acts hev with rfl | ⟨hst, hsl, hp, -, -, -, -, hdisj⟩
      · exact ih
      · have hlen : s'.players.length = s.players.length + 1 := by
          rw [hp]
          simp
        have hone := ih.2 hst hsl
        constructor
        · omega
        · intro hst' hsl''
          rcases hdisj with ⟨-, hne2⟩ | ⟨-, hstrue⟩
          · have hlen2 : (s.players ++ [u]).length = s.players.length + 1 := by simp
            omega
          · rw [hstrue] at hst'
            cases hst'
    | leave u =>
      simp only [onEvent, Option.some.injEq] at hev
      have hs' : s' = (handleLeave s u).1 := by rw [hev]
      have hst := handleLeave_state s u
      rw [hs']
      constructor
      · exact le_trans hst.2.2.2.2.1 ih.1
      · intro hst' hsl'
        rcases hst.2.2.2.2.2 with heq | htrue
        · rw [heq] at hst' hsl' ⊢
          exact ih.2 hst' hsl'
        · rw [htrue] at hsl'
          cases hsl'
    | buttonClick u bid =>
      simp only [onEvent] at hev
      rcases handleButtonClick_char env s u bid s' acts hev with
        rfl | ⟨i, -, r, c, -, -, -, hp, hstarted, -, hdisj⟩
      · exact ih
      · constructor
        · rw [hp]
          exact ih.1
        · intro hst' hsl'
          rw [hp]
          apply ih.2
          · rw [← hstarted]
            exact hst'
          · rcases hdisj with heq | htrue
            · rw [← heq]
              exact hsl'
            · rw [htrue] at hsl'
              cases hsl'

theorem started_monotone (env : Env) (s : SaveBundle) (e : GameEvent) (s' : SaveBundle)
    (acts : List Act) (hev : onEvent env s e = some (s', acts)) (hst : s.started = true) :
    s'.started = true := by
  cases e with
  | join u =>
    simp only [onEvent] at hev
    rcases handleJoin_char env s u s' acts hev with rfl | ⟨hf, -⟩
    · exact hst
    · rw [hst] at hf
      cases hf
  | leave u =>
    simp only [onEvent, Option.some.injEq] at hev
    have hs' : s' = (handleLeave s u).1 := by rw [hev]
    rw [hs', (handleLeave_state s u).2.2.1]
    exact hst
  | buttonClick u bid =>
    simp only [onEvent] at hev
    rcases handleButtonClick_char env s u bid s' acts hev with
      rfl | ⟨-, -, -, -, -, -, -, -, hstarted, -, -⟩
    · exact hst
    · rw [hstarted]
      exact hst

/-- C6: players.length never exceeds 2 in any reachable state; from an empty
Lobby state, two joins flip the session to started exactly on the second
join (the first join leaves it unstarted); any join on a started session is
rejected with a private notice and changes nothing; and started is never
unset again by any later event. -/
theorem join_lifecycle :
    (∀ s : SaveBundle, Reachable s → s.players.length ≤ 2) ∧
    (∀ (env1 env2 : Env) (s0 : SaveBundle) (u1 u2 : GameUser),
      u1.id ≠ u2.id → s0.started = false → s0.stale = false → s0.players = [] →
      ∃ s1 a1, handleJoin env1 s0 u1 = some (s1, a1) ∧ s1.started = false ∧
        s1.stale = false ∧ s1.players = [u1] ∧
        ∃ s2 a2, handleJoin env2 s1 u2 = some (s2, a2) ∧ s2.started = true ∧
          s2.stale = false) ∧
    (∀ (env : Env) (s : SaveBundle) (u : GameUser), s.started = true →
      handleJoin env s u =
        some (s, [Act.host (HostRequest.sendPrivateMessage u.id alreadyStartedMessage)])) ∧
    (∀ (env : Env) (s : SaveBundle) (e : GameEvent) (s' : SaveBundle) (acts : List Act),
      onEvent env s e = some (s', acts) → s.started = true → s'.started = true) := by
  refine ⟨?_, ?_, ?_, ?_⟩
  · intro s h
    exact (players_invariant s h).1
  · intro env1 env2 s0 u1 u2 hne hst0 hsl0 hp0
    simp only [handleJoin, hst0, hsl0, hp0, Bool.false_eq_true, if_false, List.nil_append,
      List.length_cons, List.length_nil]
    refine ⟨_, _, rfl, rfl, rfl, rfl, ?_⟩
    rcases hkk : env2.coin with ⟨kv, hkv⟩
    interval_cases kv <;>
      simp only [handleJoin, startGame, sendTurnNotificationAndAccept, sendTurnNotification,
        hst0, hsl0, hkk, Bool.false_eq_true, if_false, List.length_cons, List.length_nil] <;>
      exact ⟨_, _, rfl, rfl, rfl⟩
  · intro env s u hst
    unfold handleJoin
    rw [if_pos hst]
  · intro env s e s' acts hev hst
    exact started_monotone env s e s' acts hev hst

/-- Witness for C6: the reachable empty session respects the bound, and the
concrete started session rejects a join without any state change. -/
theorem join_lifecycle_witness :
    (initSession env0 defaultIcons none).1.players.length ≤ 2 ∧
      sActive.started = true ∧
      handleJoin env0 sActive bob =
        some (sActive, [Act.host (HostRequest.sendPrivateMessage bob.id alreadyStartedMessage)]) :=
  ⟨join_lifecycle.1 _ (Reachable.init env0 defaultIcons), rfl,
    join_lifecycle.2.2.1 env0 sActive bob rfl⟩

/-- C3: a selection is considered only when the session is not stale, the
control id is a cell index in 0..8, and the board message exists (otherwise
the event is a complete no-op); a selection by the wrong user, or outside
the acceptance window, sends only a transient auto-retracted notice and
changes no field; a selection of an already occupied cell is ignored with a
diagnostic log only, with no user-facing notice and no mutation. -/
theorem selection_guards :
    (∀ (env : Env) (s : SaveBundle) (u : GameUser) (bid : String),
      ¬(s.stale = false ∧ ∃ n, jsParseInt bid = some n ∧ 0 ≤ n ∧ n ≤ 8 ∧
          s.gameBoardMessageDescriptor.isSome = true) →
      handleButtonClick env s u bid = some (s, [])) ∧
    (∀ (env : Env) (s : SaveBundle) (u : GameUser) (bid : String) (n : Int) (i : Player)
      (cur : GameUser),
      jsParseInt bid = some n → 0 ≤ n → n ≤ 8 → s.stale = false →
      s.gameBoardMessageDescriptor.isSome = true → s.currentPlayerIndex = some i →
      s.players.get? i.val = some cur → u.id ≠ cur.id →
      handleButtonClick env s u bid = some (s,
        [Act.host (HostRequest.sendMessage (notYourTurnMessage u) s.channelId [] none),
         Act.scheduleDelete env.noticeMd.channelId env.noticeMd.messageId 3000])) ∧
    (∀ (env : Env) (s : SaveBundle) (u : GameUser) (bid : String) (n : Int) (i : Player)
      (cur : GameUser),
      jsParseInt bid = some n → 0 ≤ n → n ≤ 8 → s.stale = false →
      s.gameBoardMessageDescriptor.isSome = true → s.currentPlayerIndex = some i →
      s.players.get? i.val = some cur → u.id = cur.id → s.acceptSelection = false →
      handleButtonClick env s u bid = some (s,
        [Act.host (HostRequest.sendMessage (alreadyChoseMessage u) s.channelId [] none),
         Act.scheduleDelete env.noticeMd.channelId env.noticeMd.messageId 3000])) ∧
    (∀ (env : Env) (s : SaveBundle) (u : GameUser) (bid : String) (n : Int) (i : Player)
      (cur : GameUser) (r c : Fin 3),
      jsParseInt bid = some n → 0 ≤ n → n ≤ 8 → s.stale = false →
      s.gameBoardMessageDescriptor.isSome = true → s.currentPlayerIndex = some i →
      s.players.get? i.val = some cur → u.id = cur.id → s.acceptSelection = true →
      r.val = n.toNat / s.gameSize → c.val = n.toNat - n.toNat / s.gameSize * s.gameSize →
      (s.boardStates r c).isSome = true →
      handleButtonClick env s u bid = some (s, [Act.log wrongTurnWarning])) := by
  refine ⟨?_, ?_, ?_, ?_⟩
  · intro env s u bid hno
    unfold handleButtonClick
    split
    · rfl
    · rename_i n hn
      rw [if_neg]
      rintro ⟨hs, h0, h8, hd⟩
      exact hno ⟨hs, n, hn, h0, h8, hd⟩
  · intro env s u bid n i cur hpn h0 h8 hstale hd hci hcur hne
    have hbind : s.currentPlayerIndex.bind (fun j => s.players.get? j.val) = some cur := by
      rw [hci]
      exact hcur
    simp only [handleButtonClick, hpn]
    rw [if_pos ⟨hstale, h0, h8, hd⟩]
    simp only [hbind]
    rw [if_pos hne]
  · intro env s u bid n i cur hpn h0 h8 hstale hd hci hcur huid hacc
    have hbind : s.currentPlayerIndex.bind (fun j => s.players.get? j.val) = some cur := by
      rw [hci]
      exact hcur
    simp only [handleButtonClick, hpn]
    rw [if_pos ⟨hstale, h0, h8, hd⟩]
    simp only [hbind]
    rw [if_neg (fun hcontr => hcontr huid), if_pos hacc]
  · intro env s u bid n i cur r c hpn h0 h8 hstale hd hci hcur huid hacc hr hc hocc
    have hbind : s.currentPlayerIndex.bind (fun j => s.players.get? j.val) = some cur := by
      rw [hci]
      exact hcur
    simp only [handleButtonClick, hpn]
    rw [if_pos ⟨hstale, h0, h8, hd⟩]
    simp only [hbind]
    rw [if_neg (fun hcontr => hcontr huid)]
    rw [if_neg (by intro hcontr; rw [hacc] at hcontr; cases hcontr)]
    have hb1 : n.toNat / s.gameSize < 3 := by
      rw [← hr]
      exact r.isLt
    have hb2 : n.toNat - n.toNat / s.gameSize * s.gameSize < 3 := by
      rw [← hc]
      exact c.isLt
    simp only [handleUserTurn]
    rw [dif_pos (⟨hb1, hb2⟩ : _ ∧ _)]
    simp only [fin3_mk_eq (n.toNat / s.gameSize) r hr.symm,
      fin3_mk_eq (n.toNat - n.toNat / s.gameSize * s.gameSize) c hc.symm]
    rw [if_pos hocc]

/-- Witness for C3: a stale session ignores a click completely; the wrong
user gets only the transient notice; a click on an occupied cell produces
only the diagnostic log. -/
theorem selection_guards_witness :
    handleButtonClick env0 sStale alice "4" = some (sStale, []) ∧
    handleButtonClick env0 sActive bob "4" = some (sActive,
      [Act.host (HostRequest.sendMessage (notYourTurnMessage bob) sActive.channelId [] none),
       Act.scheduleDelete env0.noticeMd.channelId env0.noticeMd.messageId 3000]) ∧
    handleButtonClick env0 sTopRow alice "0" = some (sTopRow, [Act.log wrongTurnWarning]) :=
  ⟨selection_guards.1 env0 sStale alice "4" (by rintro ⟨hcontr, -⟩; exact absurd hcontr (by decide)),
   selection_guards.2.1 env0 sActive bob "4" 4 0 alice (by decide) (by decide) (by decide)
     rfl rfl rfl rfl (by decide),
   selection_guards.2.2.2 env0 sTopRow alice "0" 0 0 alice 0 0 rfl (by decide) (by decide)
     rfl rfl rfl rfl rfl rfl (by decide) (by decide) (by decide)⟩

/-- C5: a leave by a non-member changes nothing and issues nothing; a leave
by a member removes them from players and unconditionally makes the session
stale; when at least one player remains and the session was not already
stale, exactly the stale notice (with the single leave control) and the
channel-removal request are issued; when the departing user was the sole
member, nothing is issued but the session still becomes stale. -/
theorem handleLeave_correct :
    (∀ (s : SaveBundle) (u : GameUser),
      (∀ v ∈ s.players, v.id ≠ u.id) → handleLeave s u = (s, [])) ∧
    (∀ (s : SaveBundle) (u : GameUser) (i : Nat),
      (s.players.map (fun v => v.id)).findIdx? (fun x => x == u.id) = some i →
      (handleLeave s u).1 = { s with players := s.players.eraseIdx i, stale := true } ∧
      (0 < (s.players.eraseIdx i).length → s.stale = false →
        (handleLeave s u).2 =
          [Act.host (HostRequest.sendMessage (leftGameMessage u) s.channelId
            [[LEAVE_BUTTON]] none),
           Act.host (HostRequest.removeUserFromChannel u.id s.channelId)]) ∧
      ((s.players.eraseIdx i).length = 0 → (handleLeave s u).2 = [])) := by
  constructor
  · intro s u hmem
    have hf : (s.players.map (fun v => v.id)).findIdx? (fun x => x == u.id) = none := by
      rw [List.findIdx?_eq_none_iff]
      intro x hx
      simp only [List.mem_map] at hx
      obtain ⟨v, hv, rfl⟩ := hx
      exact beq_eq_false_iff_ne.mpr (hmem v hv)
    unfold handleLeave
    rw [hf]
  · intro s u i hf
    simp only [handleLeave, hf]
    by_cases hlen : 0 < (s.players.eraseIdx i).length
    · rw [if_pos hlen]
      refine ⟨rfl, ?_, ?_⟩
      · intro _ hstale
        simp [hstale]
      · intro h0
        exact absurd h0 (by omega)
    · rw [if_neg hlen]
      refine ⟨rfl, ?_, ?_⟩
      · intro hpos _
        exact absurd hpos hlen
      · intro _
        rfl

/-- Witness for C5: alice leaving the running two-player game broadcasts the
stale notice with the leave control, requests her removal, and marks the
session stale; bob leaving as sole member only marks it stale. -/
theorem handleLeave_correct_witness :
    ((sActive.players.map (fun v => v.id)).findIdx? (fun x => x == alice.id) = some 0 ∧
      (handleLeave sActive alice).1 =
        { sActive with players := sActive.players.eraseIdx 0, stale := true } ∧
      (handleLeave sActive alice).2 =
        [Act.host (HostRequest.sendMessage (leftGameMessage alice) sActive.channelId
          [[LEAVE_BUTTON]] none),
         Act.host (HostRequest.removeUserFromChannel alice.id sActive.channelId)]) ∧
    handleLeave { sActive with players := [bob] } bob =
      ({ sActive with players := [], stale := true }, []) := by
  have h1 := handleLeave_correct.2 sActive alice 0 (by decide)
  refine ⟨⟨by decide, h1.1, h1.2.1 (by decide) rfl⟩, ?_⟩
  have h2 := handleLeave_correct.2 { sActive with players := [bob] } bob 0 (by decide)
  have hfst := h2.1
  have hsnd := h2.2.2 (by decide)
  rw [Prod.ext_iff]
  exact ⟨hfst, hsnd⟩

theorem sendTurnNotificationAndAccept_total (env : Env) (s : SaveBundle) (v : GameUser)
    (hv : s.currentPlayerIndex.bind (fun j => s.players.get? j.val) = some v) :
    sendTurnNotificationAndAccept env s =
      some ({ s with lastTurnMessageId := some env.turnMsgMd.messageId,
                     acceptSelection := true },
        ((match s.lastTurnMessageId with
          | some m => if m = "" then []
              else [Act.host (HostRequest.deleteMessage s.channelId (some m))]
          | none => []) ++
         [Act.host (HostRequest.sendMessage (turnMessage v) s.channelId [] (some [v.id]))]) ++
        [Act.setAcceptSelection true]) := by
  unfold sendTurnNotificationAndAccept
  simp only [sendTurnNotification, hv]

/-- C7: an accepted move that completes no winning line and does not empty
the board advances currentPlayerIndex to (currentPlayerIndex + 1) mod 2,
which always differs from the previous value, so accepted moves strictly
alternate between the two players. -/
theorem turn_alternation (env : Env) (s : SaveBundle) (n : Nat) (i : Player) (pn : GameUser)
    (d : MessageDescriptor) (r c : Fin 3)
    (hci : s.currentPlayerIndex = some i)
    (hr : r.val = n / s.gameSize) (hc : c.val = n - n / s.gameSize * s.gameSize)
    (hempty : s.boardStates r c = none)
    (hnowin : checkForWin (placeMark s r c) = none)
    (hd : s.gameBoardMessageDescriptor = some d)
    (hnodraw : ¬((placeMark s r c).possibleTurnsCount = 0))
    (hnext : s.players.get? (nextPlayer i).val = some pn) :
    ∃ s' acts, handleUserTurn env s n = some (s', acts) ∧
      s'.currentPlayerIndex = some (nextPlayer i) ∧ nextPlayer i ≠ i := by
  have hb1 : n / s.gameSize < 3 := by
    rw [← hr]
    exact r.isLt
  have hb2 : n - n / s.gameSize * s.gameSize < 3 := by
    rw [← hc]
    exact c.isLt
  have hd' : (placeMark s r c).gameBoardMessageDescriptor = some d := hd
  simp only [handleUserTurn]
  rw [dif_pos (⟨hb1, hb2⟩ : _ ∧ _)]
  simp only [fin3_mk_eq (n / s.gameSize) r hr.symm,
    fin3_mk_eq (n - n / s.gameSize * s.gameSize) c hc.symm]
  rw [if_neg (by intro hcontr; rw [hempty] at hcontr; cases hcontr)]
  simp only [hnowin, hd']
  rw [if_neg hnodraw]
  rw [sendTurnNotificationAndAccept_total env _ pn (by
    show (s.currentPlayerIndex.map nextPlayer).bind (fun j => s.players.get? j.val) = some pn
    rw [hci]
    exact hnext)]
  refine ⟨_, _, rfl, ?_, ?_⟩
  · show s.currentPlayerIndex.map nextPlayer = some (nextPlayer i)
    rw [hci]
    rfl
  · apply Fin.ne_of_val_ne
    show (i.val + 1) % 2 ≠ i.val
    omega

/-- Witness for C7: alice playing cell 4 on the empty board hands the turn
to player 1. -/
theorem turn_alternation_witness :
    sActive.currentPlayerIndex = some 0 ∧
    ∃ s' acts, handleUserTurn env0 sActive 4 = some (s', acts) ∧
      s'.currentPlayerIndex = some (nextPlayer 0) ∧ nextPlayer 0 ≠ 0 :=
  ⟨rfl, turn_alternation env0 sActive 4 0 bob ⟨"chan", "boardmsg"⟩ 1 1 rfl (by decide)
    (by decide) rfl (by decide) rfl (by decide) rfl⟩

/-- C9: in a turn-notification cycle the host requests are issued in program
order: at game start, the board message is sent first, then (no previous
turn message existing) the turn message mentioning only the acting player,
and the awaitingSelection flag flips to true only after that send, as the
last step of the chain; after an accepted non-winning, non-final move, the
flag is cleared, the single affected control is replaced, the previous turn
message is retracted, then the new turn message mentioning only the acting
player is sent, and only then does awaitingSelection become true, again as
the last step. -/
theorem turn_notification_order :
    (∀ (env : Env) (s : SaveBundle) (p0 p1 pc : GameUser),
      s.players.get? 0 = some p0 → s.players.get? 1 = some p1 →
      s.lastTurnMessageId = none → s.players.get? (env.coin).val = some pc →
      (startGame env s).map Prod.snd = some
        [Act.host (HostRequest.sendMessage
            (iconAssignMessage { s with started := true } p0 p1) s.channelId
            (buildTicTacToe { s with started := true } false) none),
         Act.host (HostRequest.sendMessage (turnMessage pc) s.channelId [] (some [pc.id])),
         Act.setAcceptSelection true]) ∧
    (∀ (env : Env) (s : SaveBundle) (n : Nat) (i : Player) (pn : GameUser)
      (d : MessageDescriptor) (r c : Fin 3) (m : String),
      s.currentPlayerIndex = some i →
      r.val = n / s.gameSize → c.val = n - n / s.gameSize * s.gameSize →
      s.boardStates r c = none →
      checkForWin (placeMark s r c) = none →
      s.gameBoardMessageDescriptor = some d →
      ¬((placeMark s r c).possibleTurnsCount = 0) →
      s.players.get? (nextPlayer i).val = some pn →
      s.lastTurnMessageId = some m → m ≠ "" →
      (handleUserTurn env s n).map Prod.snd = some
        [Act.setAcceptSelection false,
         Act.host (HostRequest.replaceControl s.channelId d.messageId (toString n)
           (buildButton { placeMark s r c with acceptSelection := false } r c false)),
         Act.host (HostRequest.deleteMessage s.channelId (some m)),
         Act.host (HostRequest.sendMessage (turnMessage pn) s.channelId [] (some [pn.id])),
         Act.setAcceptSelection true]) := by
  constructor
  · intro env s p0 p1 pc h0 h1 hlast hpc
    simp only [startGame, h0, h1]
    rw [sendTurnNotificationAndAccept_total env _ pc (by
      show (some env.coin).bind (fun j => s.players.get? j.val) = some pc
      exact hpc)]
    simp only [Option.map_some', hlast]
    rfl
  · intro env s n i pn d r c m hci hr hc hempty hnowin hd hnodraw hnext hlast hm
    have hb1 : n / s.gameSize < 3 := by
      rw [← hr]
      exact r.isLt
    have hb2 : n - n / s.gameSize * s.gameSize < 3 := by
      rw [← hc]
      exact c.isLt
    have hd' : (placeMark s r c).gameBoardMessageDescriptor = some d := hd
    simp only [handleUserTurn]
    rw [dif_pos (⟨hb1, hb2⟩ : _ ∧ _)]
    simp only [fin3_mk_eq (n / s.gameSize) r hr.symm,
      fin3_mk_eq (n - n / s.gameSize * s.gameSize) c hc.symm]
    rw [if_neg (by intro hcontr; rw [hempty] at hcontr; cases hcontr)]
    simp only [hnowin, hd']
    rw [if_neg hnodraw]
    rw [sendTurnNotificationAndAccept_total env _ pn (by
      show (s.currentPlayerIndex.map nextPlayer).bind (fun j => s.players.get? j.val) = some pn
      rw [hci]
      exact hnext)]
    have hlast' : (placeMark s r c).lastTurnMessageId = some m := hlast
    simp only [Option.map_some', hlast']
    rw [if_neg hm]
    rfl

/-- Witness for C9: the initial cycle on a fresh two-player lobby and the
cycle after alice plays cell 4 on the running game, both with the stated
traces. -/
theorem turn_notification_order_witness :
    ((startGame env0 sLobby2).map Prod.snd).isSome = true ∧
    (handleUserTurn env0 sActive 4).map Prod.snd = some
      [Act.setAcceptSelection false,
       Act.host (HostRequest.replaceControl sActive.channelId "boardmsg" (toString 4)
         (buildButton { placeMark sActive 1 1 with acceptSelection := false } 1 1 false)),
       Act.host (HostRequest.deleteMessage sActive.channelId (some "turnmsg")),
       Act.host (HostRequest.sendMessage (turnMessage bob) sActive.channelId []
         (some [bob.id])),
       Act.setAcceptSelection true] := by
  constructor
  · rw [turn_notification_order.1 env0 sLobby2 alice bob alice rfl rfl rfl rfl]
    rfl
  · exact turn_notification_order.2 env0 sActive 4 0 bob ⟨"chan", "boardmsg"⟩ 1 1 "turnmsg"
      rfl (by decide) (by decide) rfl (by decide) rfl (by decide) rfl rfl (by decide)
